import Mathlib

/-!
Shallow embedding of the ray-tracer-challenge geometric core
(`src/intersection.rs`, `src/computation.rs`, `src/world.rs`,
`src/shape/*.rs`, `src/material.rs`, `src/pattern.rs`, `src/light.rs`,
`src/bounds.rs`, `src/ray.rs`) together with proofs of the spec claims.

The source is generic over a floating-point scalar `T: BaseFloat`
(instantiated at `f32` throughout the crate's tests and binaries).  The
embedding replaces IEEE floats by an exact linear ordered field `K`
(instantiated below at `ℚ` for executable claims and at `ℝ` where the
relevant inputs involve `√2`).  The few genuinely float-specific
operations the source uses are carried in the `RtField` class:

* `sqrt`  models `Float::sqrt` (exact `Real.sqrt` at `ℝ`, `Rat.sqrt` at
  `ℚ`; every claim below that evaluates a square root does so only at a
  perfect square, where `Rat.sqrt` is exact),
* `powf`  models `Float::powf`, used only inside the specular term of
  `Material::lighting`, which the spec (§6) treats as an external
  collaborator and whose numeric value no claim depends on,
* `eps`   models `T::epsilon() = f32::EPSILON = 2⁻²³`, also the default
  epsilon of the `approx` crate comparisons `abs_diff_eq!/abs_diff_ne!`,
* `inf`, `maxVal`, `minVal` model `T::infinity()`, `T::max_value()`,
  `T::min_value()`; they occur only in branches no claim touches
  (degenerate cube slabs, cone/cylinder/plane default bounds),
* `floorI` models the `cast(x.floor())` idiom of `src/pattern.rs`.

Reference-counted parent back-references (`ShapeWeak`, `ShapeLink`) are
`PartialEq = "ignore"` in the source and only serve upward transform
walks for grouped shapes; the embedding's `Shape` tree stores children
directly and drops the ignored parent field.

Rust's `Option::unwrap` on a `None` aborts the process.  Where the
source unwraps a value that is `Some` on every path a claim exercises
(`material().unwrap()` on primitive shapes, `uv.unwrap()` on smooth
triangles), the embedding uses a total default (`unwrapD`) so that the
functions stay total.
-/

namespace RayTracer

/-- Scalar operations the source uses beyond linear ordered field
arithmetic; see the module doc comment. -/
class RtField (K : Type) extends LinearOrderedField K where
  sqrt : K → K
  powf : K → K → K
  eps : K
  inf : K
  maxVal : K
  minVal : K
  floorI : K → ℤ

/-- `ℚ` instance: exact arithmetic; `Rat.sqrt` agrees with the ideal
square root at perfect squares, which is the only place a `ℚ`-valued
claim evaluates it.  `powf` feeds only the externally specified
`Material::lighting`; `inf`/`maxVal`/`minVal` are large sentinels for
the IEEE special values, reached by no claim. -/
instance : RtField ℚ where
  sqrt := Rat.sqrt
  powf := fun _ _ => 0
  eps := 1 / 8388608
  inf := 10 ^ 40
  maxVal := 10 ^ 39
  minVal := -(10 ^ 39)
  floorI := fun q => ⌊q⌋

/-- `ℝ` instance: the idealized semantics with exact `Real.sqrt`. -/
noncomputable instance : RtField ℝ where
  sqrt := Real.sqrt
  powf := fun b e => b ^ e
  eps := 1 / 8388608
  inf := 10 ^ 40
  maxVal := 10 ^ 39
  minVal := -(10 ^ 39)
  floorI := fun x => ⌊x⌋

export RtField (sqrt powf eps inf maxVal minVal floorI)

/-- `approx::abs_diff_eq!(a, b)` at the default epsilon. -/
def absDiffEq {K : Type} [RtField K] (a b : K) : Prop := |a - b| ≤ eps

instance {K : Type} [RtField K] (a b : K) : Decidable (absDiffEq a b) := by
  unfold absDiffEq; infer_instance

/-- `cgmath::Vector3<T>`. -/
structure V3 (K : Type) where
  x : K
  y : K
  z : K
deriving DecidableEq, Repr

/-- `cgmath::Point3<T>`. -/
structure P3 (K : Type) where
  x : K
  y : K
  z : K
deriving DecidableEq, Repr

/-- `cgmath::Vector4<T>`. -/
structure V4 (K : Type) where
  x : K
  y : K
  z : K
  w : K
deriving DecidableEq, Repr

namespace V3

variable {K : Type} [RtField K]

instance : Add (V3 K) := ⟨fun a b => ⟨a.x + b.x, a.y + b.y, a.z + b.z⟩⟩

instance : Sub (V3 K) := ⟨fun a b => ⟨a.x - b.x, a.y - b.y, a.z - b.z⟩⟩

instance : Neg (V3 K) := ⟨fun a => ⟨-a.x, -a.y, -a.z⟩⟩

/-- `Vector3 * scalar`. -/
def smul (v : V3 K) (s : K) : V3 K := ⟨v.x * s, v.y * s, v.z * s⟩

/-- `cgmath::dot`. -/
def dot (a b : V3 K) : K := a.x * b.x + a.y * b.y + a.z * b.z

/-- `Vector3::cross`. -/
def cross (a b : V3 K) : V3 K :=
  ⟨a.y * b.z - a.z * b.y, a.z * b.x - a.x * b.z, a.x * b.y - a.y * b.x⟩

/-- `InnerSpace::magnitude`. -/
def magnitude (v : V3 K) : K := sqrt (dot v v)

/-- `InnerSpace::normalize`: `v * (1 / magnitude v)`. -/
def normalize (v : V3 K) : V3 K := smul v (1 / magnitude v)

/-- `Vector3::extend`. -/
def extend (v : V3 K) (w : K) : V4 K := ⟨v.x, v.y, v.z, w⟩

/-- `Vector3::unit_x()`. -/
def unitX : V3 K := ⟨1, 0, 0⟩

/-- `Vector3::unit_y()`. -/
def unitY : V3 K := ⟨0, 1, 0⟩

/-- `Vector3::unit_z()`. -/
def unitZ : V3 K := ⟨0, 0, 1⟩

end V3

namespace V4

/-- `Vector4::truncate`. -/
def truncate {K : Type} (v : V4 K) : V3 K := ⟨v.x, v.y, v.z⟩

end V4

namespace P3

variable {K : Type} [RtField K]

/-- `Point3 - Point3 = Vector3`. -/
def sub (a b : P3 K) : V3 K := ⟨a.x - b.x, a.y - b.y, a.z - b.z⟩

/-- `Point3 + Vector3`. -/
def addV (p : P3 K) (v : V3 K) : P3 K := ⟨p.x + v.x, p.y + v.y, p.z + v.z⟩

/-- `Point3::to_vec`. -/
def toVec (p : P3 K) : V3 K := ⟨p.x, p.y, p.z⟩

/-- `Point3::to_homogeneous`. -/
def toHomogeneous (p : P3 K) : V4 K := ⟨p.x, p.y, p.z, 1⟩

/-- `Point3::from_homogeneous`: scales by `1 / w`. -/
def fromHomogeneous (v : V4 K) : P3 K :=
  ⟨v.x * (1 / v.w), v.y * (1 / v.w), v.z * (1 / v.w)⟩

/-- `Point3::origin()`. -/
def origin : P3 K := ⟨0, 0, 0⟩

end P3

/-- `cgmath::Matrix4<T>`, written by rows: `aij` is row `i`, column `j`
of the usual mathematical matrix (cgmath stores columns; `M4.mulV`
below is cgmath's `mat * vec`). -/
structure M4 (K : Type) where
  a00 : K
  a01 : K
  a02 : K
  a03 : K
  a10 : K
  a11 : K
  a12 : K
  a13 : K
  a20 : K
  a21 : K
  a22 : K
  a23 : K
  a30 : K
  a31 : K
  a32 : K
  a33 : K
deriving DecidableEq, Repr

namespace M4

variable {K : Type} [RtField K]

/-- `Matrix4 * Vector4`. -/
def mulV (m : M4 K) (v : V4 K) : V4 K :=
  ⟨m.a00 * v.x + m.a01 * v.y + m.a02 * v.z + m.a03 * v.w,
   m.a10 * v.x + m.a11 * v.y + m.a12 * v.z + m.a13 * v.w,
   m.a20 * v.x + m.a21 * v.y + m.a22 * v.z + m.a23 * v.w,
   m.a30 * v.x + m.a31 * v.y + m.a32 * v.z + m.a33 * v.w⟩

/-- `Matrix4 * Matrix4`. -/
def mulM (a b : M4 K) : M4 K :=
  ⟨a.a00 * b.a00 + a.a01 * b.a10 + a.a02 * b.a20 + a.a03 * b.a30,
   a.a00 * b.a01 + a.a01 * b.a11 + a.a02 * b.a21 + a.a03 * b.a31,
   a.a00 * b.a02 + a.a01 * b.a12 + a.a02 * b.a22 + a.a03 * b.a32,
   a.a00 * b.a03 + a.a01 * b.a13 + a.a02 * b.a23 + a.a03 * b.a33,
   a.a10 * b.a00 + a.a11 * b.a10 + a.a12 * b.a20 + a.a13 * b.a30,
   a.a10 * b.a01 + a.a11 * b.a11 + a.a12 * b.a21 + a.a13 * b.a31,
   a.a10 * b.a02 + a.a11 * b.a12 + a.a12 * b.a22 + a.a13 * b.a32,
   a.a10 * b.a03 + a.a11 * b.a13 + a.a12 * b.a23 + a.a13 * b.a33,
   a.a20 * b.a00 + a.a21 * b.a10 + a.a22 * b.a20 + a.a23 * b.a30,
   a.a20 * b.a01 + a.a21 * b.a11 + a.a22 * b.a21 + a.a23 * b.a31,
   a.a20 * b.a02 + a.a21 * b.a12 + a.a22 * b.a22 + a.a23 * b.a32,
   a.a20 * b.a03 + a.a21 * b.a13 + a.a22 * b.a23 + a.a23 * b.a33,
   a.a30 * b.a00 + a.a31 * b.a10 + a.a32 * b.a20 + a.a33 * b.a30,
   a.a30 * b.a01 + a.a31 * b.a11 + a.a32 * b.a21 + a.a33 * b.a31,
   a.a30 * b.a02 + a.a31 * b.a12 + a.a32 * b.a22 + a.a33 * b.a32,
   a.a30 * b.a03 + a.a31 * b.a13 + a.a32 * b.a23 + a.a33 * b.a33⟩

/-- `Matrix::transpose`. -/
def transpose (m : M4 K) : M4 K :=
  ⟨m.a00, m.a10, m.a20, m.a30,
   m.a01, m.a11, m.a21, m.a31,
   m.a02, m.a12, m.a22, m.a32,
   m.a03, m.a13, m.a23, m.a33⟩

/-- Determinant of a 3×3 block, helper for `det` and `invert`. -/
def det3 (b00 b01 b02 b10 b11 b12 b20 b21 b22 : K) : K :=
  b00 * (b11 * b22 - b12 * b21) - b01 * (b10 * b22 - b12 * b20) +
    b02 * (b10 * b21 - b11 * b20)

/-- `SquareMatrix::determinant`, by Laplace expansion along row 0. -/
def det (m : M4 K) : K :=
  m.a00 * det3 m.a11 m.a12 m.a13 m.a21 m.a22 m.a23 m.a31 m.a32 m.a33 -
    m.a01 * det3 m.a10 m.a12 m.a13 m.a20 m.a22 m.a23 m.a30 m.a32 m.a33 +
    m.a02 * det3 m.a10 m.a11 m.a13 m.a20 m.a21 m.a23 m.a30 m.a31 m.a33 -
    m.a03 * det3 m.a10 m.a11 m.a12 m.a20 m.a21 m.a22 m.a30 m.a31 m.a32

/-- Adjugate (transposed cofactor matrix), helper for `invert`. -/
def adjugate (m : M4 K) : M4 K :=
  ⟨det3 m.a11 m.a12 m.a13 m.a21 m.a22 m.a23 m.a31 m.a32 m.a33,
   -det3 m.a01 m.a02 m.a03 m.a21 m.a22 m.a23 m.a31 m.a32 m.a33,
   det3 m.a01 m.a02 m.a03 m.a11 m.a12 m.a13 m.a31 m.a32 m.a33,
   -det3 m.a01 m.a02 m.a03 m.a11 m.a12 m.a13 m.a21 m.a22 m.a23,
   -det3 m.a10 m.a12 m.a13 m.a20 m.a22 m.a23 m.a30 m.a32 m.a33,
   det3 m.a00 m.a02 m.a03 m.a20 m.a22 m.a23 m.a30 m.a32 m.a33,
   -det3 m.a00 m.a02 m.a03 m.a10 m.a12 m.a13 m.a30 m.a32 m.a33,
   det3 m.a00 m.a02 m.a03 m.a10 m.a12 m.a13 m.a20 m.a22 m.a23,
   det3 m.a10 m.a11 m.a13 m.a20 m.a21 m.a23 m.a30 m.a31 m.a33,
   -det3 m.a00 m.a01 m.a03 m.a20 m.a21 m.a23 m.a30 m.a31 m.a33,
   det3 m.a00 m.a01 m.a03 m.a10 m.a11 m.a13 m.a30 m.a31 m.a33,
   -det3 m.a00 m.a01 m.a03 m.a10 m.a11 m.a13 m.a20 m.a21 m.a23,
   -det3 m.a10 m.a11 m.a12 m.a20 m.a21 m.a22 m.a30 m.a31 m.a32,
   det3 m.a00 m.a01 m.a02 m.a20 m.a21 m.a22 m.a30 m.a31 m.a32,
   -det3 m.a00 m.a01 m.a02 m.a10 m.a11 m.a12 m.a30 m.a31 m.a32,
   det3 m.a00 m.a01 m.a02 m.a10 m.a11 m.a12 m.a20 m.a21 m.a22⟩

/-- Scale every entry. -/
def scale (s : K) (m : M4 K) : M4 K :=
  ⟨s * m.a00, s * m.a01, s * m.a02, s * m.a03,
   s * m.a10, s * m.a11, s * m.a12, s * m.a13,
   s * m.a20, s * m.a21, s * m.a22, s * m.a23,
   s * m.a30, s * m.a31, s * m.a32, s * m.a33⟩

/-- `SquareMatrix::invert`: `None` on zero determinant (the source's
`ulps_eq!(det, zero)` test; exact zero in this exact-arithmetic
embedding), otherwise the adjugate divided by the determinant. -/
def invert (m : M4 K) : Option (M4 K) :=
  if det m = 0 then none else some (scale (1 / det m) (adjugate m))

/-- `Matrix4::identity()`. -/
def identity : M4 K :=
  ⟨1, 0, 0, 0, 0, 1, 0, 0, 0, 0, 1, 0, 0, 0, 0, 1⟩

/-- `Matrix4::from_translation(v)`. -/
def fromTranslation (v : V3 K) : M4 K :=
  ⟨1, 0, 0, v.x, 0, 1, 0, v.y, 0, 0, 1, v.z, 0, 0, 0, 1⟩

/-- `Matrix4::from_scale(s)`. -/
def fromScale (s : K) : M4 K :=
  ⟨s, 0, 0, 0, 0, s, 0, 0, 0, 0, s, 0, 0, 0, 0, 1⟩

end M4

/-- `rgb::RGB<T>`. -/
structure RGB (K : Type) where
  r : K
  g : K
  b : K
deriving DecidableEq, Repr

namespace RGB

variable {K : Type} [RtField K]

instance : Add (RGB K) := ⟨fun a b => ⟨a.r + b.r, a.g + b.g, a.b + b.b⟩⟩

instance : Sub (RGB K) := ⟨fun a b => ⟨a.r - b.r, a.g - b.g, a.b - b.b⟩⟩

/-- `RGB * scalar`. -/
def smul (c : RGB K) (s : K) : RGB K := ⟨c.r * s, c.g * s, c.b * s⟩

/-- `RGB * RGB`, component-wise. -/
instance : Mul (RGB K) := ⟨fun a b => ⟨a.r * b.r, a.g * b.g, a.b * b.b⟩⟩

/-- `RGB::default()`: black. -/
def default : RGB K := ⟨0, 0, 0⟩

end RGB

/-- `pattern::Pattern<T>` (`src/pattern.rs`); each non-solid variant
carries its two colors and its own transform. -/
inductive Pattern (K : Type) where
  | solid : RGB K → Pattern K
  | stripe : RGB K → RGB K → M4 K → Pattern K
  | gradient : RGB K → RGB K → M4 K → Pattern K
  | ring : RGB K → RGB K → M4 K → Pattern K
  | checker : RGB K → RGB K → M4 K → Pattern K
  | test : M4 K → Pattern K
deriving DecidableEq, Repr

namespace Pattern

variable {K : Type} [RtField K]

/-- `Pattern::at(point)` (`src/pattern.rs`; `at` is a Lean keyword). -/
def atPoint (p : Pattern K) (point : P3 K) : RGB K :=
  match p with
  | .solid c => c
  | .stripe a b _ => if floorI point.x % 2 = 0 then a else b
  | .gradient a b _ =>
      let distance := b - a
      let fraction := point.x - (floorI point.x : K)
      a + RGB.smul distance fraction
  | .ring a b _ =>
      if floorI (sqrt (point.x * point.x + point.z * point.z)) % 2 = 0 then a
      else b
  | .checker a b _ =>
      if (floorI point.x + floorI point.y + floorI point.z) % 2 = 0 then a
      else b
  | .test _ => ⟨point.x, point.y, point.z⟩

end Pattern

/-- `material::Material<T>`. -/
structure Material (K : Type) where
  pattern : Pattern K
  ambient : K
  diffuse : K
  specular : K
  shininess : K
  reflective : K
  transparency : K
  refractiveIndex : K
deriving DecidableEq, Repr

namespace Material

variable {K : Type} [RtField K]

/-- `Material::default()`. -/
def default : Material K :=
  { pattern := .solid ⟨1, 1, 1⟩
    ambient := 1 / 10
    diffuse := 9 / 10
    specular := 9 / 10
    shininess := 200
    reflective := 0
    transparency := 0
    refractiveIndex := 1 }

end Material

/-- `light::Light<T>`. -/
structure Light (K : Type) where
  position : P3 K
  intensity : RGB K
deriving DecidableEq, Repr

/-- `ray::Ray<T>`. -/
structure Ray (K : Type) where
  origin : P3 K
  direction : V3 K
deriving DecidableEq, Repr

namespace Ray

variable {K : Type} [RtField K]

/-- `Ray::position(t)`. -/
def position (r : Ray K) (time : K) : P3 K :=
  r.origin.addV (r.direction.smul time)

/-- `Ray::transform(matrix)`. -/
def transform (r : Ray K) (m : M4 K) : Ray K :=
  { origin := P3.fromHomogeneous (m.mulV r.origin.toHomogeneous)
    direction := (m.mulV (r.direction.extend 0)).truncate }

end Ray

/-- `constructive_solid_geometry::Operation`. -/
inductive Op where
  | union
  | intersect
  | difference
deriving DecidableEq, Repr

mutual

/-- `shape::Shape<T>`: the closed variant over all shape kinds
(`src/shape/mod.rs`).  Leaf field order follows each variant's struct;
the `PartialEq = "ignore"` parent back-references are dropped, and the
`ShapeLink` indirections of `Group` children and CSG operands become
direct subtrees (`ShapeList` is the `Vec<ShapeLink<T>>` of group
children, mutual with `Shape` so that equality stays decidable). -/
inductive Shape (K : Type) where
  | cone : M4 K → Material K → K → K → Bool → Shape K
  | csg : M4 K → Op → Shape K → Shape K → Shape K
  | cube : M4 K → Material K → Shape K
  | cylinder : M4 K → Material K → K → K → Bool → Shape K
  | group : M4 K → ShapeList K → Shape K
  | plane : M4 K → Material K → Shape K
  | smoothTriangle : Material K → P3 K → P3 K → P3 K → V3 K → V3 K → V3 K →
      Shape K
  | sphere : M4 K → Material K → Shape K
  | triangle : M4 K → Material K → P3 K → P3 K → P3 K → V3 K → V3 K → V3 K →
      Shape K
deriving DecidableEq, Repr

inductive ShapeList (K : Type) where
  | nil : ShapeList K
  | cons : Shape K → ShapeList K → ShapeList K
deriving DecidableEq, Repr

end

namespace ShapeList

/-- View a `ShapeList` as a plain list. -/
def toList {K : Type} : ShapeList K → List (Shape K)
  | .nil => []
  | .cons s rest => s :: toList rest

end ShapeList

/-- `f32::signum`: `1.0` on positives and `+0.0`, `-1.0` on negatives
(an exact field has no `-0.0`). -/
def signum {K : Type} [RtField K] (x : K) : K := if 0 ≤ x then 1 else -1

/-- One fold step of Rust `Iterator::min_by`: keep the accumulator
unless it compares `Greater` than the next element. -/
def rustMinStep {K : Type} [RtField K] {α : Type} (key : α → K)
    (acc : Option α) (i : α) : Option α :=
  match acc with
  | none => some i
  | some m => if key m > key i then some i else some m

/-- Rust `Iterator::min_by` keyed by `key`: first minimum wins
(the iterator folds `if compare(acc, next) == Greater { next } else
{ acc }`). -/
def rustMinBy {K : Type} [RtField K] {α : Type} (key : α → K) :
    List α → Option α :=
  List.foldl (rustMinStep key) none

/-- `Option::unwrap` on the materials of hit objects: total model
returning the default material where the source would abort; every hit
object a claim exercises is a primitive carrying `Some` material. -/
def Material.unwrapD {K : Type} [RtField K] (m : Option (Material K)) :
    Material K :=
  m.getD Material.default

/-- `intersection::Intersection<T>`: ray parameter, hit shape, and the
optional barycentric pair of the triangle family. -/
structure Intersection (K : Type) where
  t : K
  object : Shape K
  uv : Option (K × K)
deriving DecidableEq, Repr

/-- `intersection::hit`: filter out every `t` below `f32::EPSILON`,
then take the minimum-`t` intersection. -/
def hit {K : Type} [RtField K] (v : List (Intersection K)) :
    Option (Intersection K) :=
  rustMinBy (fun i => i.t) (v.filter (fun i => eps ≤ i.t))

/-- Stable insertion of `i` into a `t`-ascending list, after every
element whose `t` does not exceed `i.t`. -/
def insertT {K : Type} [RtField K] (l : List (Intersection K))
    (i : Intersection K) : List (Intersection K) :=
  match l with
  | [] => [i]
  | j :: rest => if i.t < j.t then i :: j :: rest else j :: insertT rest i

/-- The `xs.sort_by(|a, b| a.t.partial_cmp(&b.t) ...)` calls: a stable
ascending sort by `t`.  Stable sorts agree extensionally, so this
insertion sort computes exactly what Rust's stable `sort_by` returns
(the embedding has no NaN, so the comparator is total). -/
def sortByT {K : Type} [RtField K] (v : List (Intersection K)) :
    List (Intersection K) :=
  v.foldl insertT []

/-- `shape::reflect` (`src/shape/mod.rs`). -/
def reflect {K : Type} [RtField K] (v normal : V3 K) : V3 K :=
  v - (normal.smul 2).smul (v.dot normal)

namespace Shape

variable {K : Type} [RtField K]

/-- `Shape::transform()` (`src/shape/mod.rs`); `SmoothTriangle` has no
transform and reports the identity. -/
def transform : Shape K → M4 K
  | .cone tf _ _ _ _ => tf
  | .csg tf _ _ _ => tf
  | .cube tf _ => tf
  | .cylinder tf _ _ _ _ => tf
  | .group tf _ => tf
  | .plane tf _ => tf
  | .smoothTriangle _ _ _ _ _ _ _ => M4.identity
  | .sphere tf _ => tf
  | .triangle tf _ _ _ _ _ _ _ => tf

/-- `Shape::material()`: composites carry none. -/
def material : Shape K → Option (Material K)
  | .cone _ m _ _ _ => some m
  | .csg _ _ _ _ => none
  | .cube _ m => some m
  | .cylinder _ m _ _ _ => some m
  | .group _ _ => none
  | .plane _ m => some m
  | .smoothTriangle m _ _ _ _ _ _ => some m
  | .sphere _ m => some m
  | .triangle _ m _ _ _ _ _ _ => some m

mutual

/-- `Shape::include` (`src/shape/mod.rs`; `include` is a Lean keyword): a group/CSG node includes a
shape when some child subtree does; every other variant compares for
structural equality. -/
def includes : Shape K → Shape K → Bool
  | .group _ children, other => includeAny children other
  | .csg _ _ l r, other => l.includes other || r.includes other
  | s, other => s = other

/-- `children.iter().any(...)` of `Shape::include`. -/
def includeAny : ShapeList K → Shape K → Bool
  | .nil, _ => false
  | .cons c rest, other => c.includes other || includeAny rest other

end

/-- `Shape::local_normal_at` (`src/shape/mod.rs` dispatch plus each
primitive's `local_normal_at`).  The source panics on `Group` and
`ConstructiveSolidGeometry` (never hit objects); the total model
returns `unit_x` there.  `SmoothTriangle` unwraps `uv`; the total
model defaults an absent pair to `(0, 0)`. -/
def localNormalAt (s : Shape K) (point : P3 K) (uv : Option (K × K)) :
    V3 K :=
  match s with
  | .cone _ _ mn mx _ =>
      let dist := point.x ^ 2 + point.z ^ 2
      if dist < 1 ∧ absDiffEq point.y mx then V3.unitY
      else if dist < 1 ∧ absDiffEq point.y mn then -V3.unitY
      else ⟨point.x, -signum point.y * sqrt dist, point.z⟩
  | .csg _ _ _ _ => V3.unitX
  | .cube _ _ =>
      let maxc := max (max |point.x| |point.y|) |point.z|
      if maxc = |point.x| then V3.unitX.smul point.x
      else if maxc = |point.y| then V3.unitY.smul point.y
      else V3.unitZ.smul point.z
  | .cylinder _ _ mn mx _ =>
      let dist := point.x ^ 2 + point.z ^ 2
      if dist < 1 ∧ absDiffEq point.y mx then V3.unitY
      else if dist < 1 ∧ absDiffEq point.y mn then -V3.unitY
      else ⟨point.x, 0, point.z⟩
  | .group _ _ => V3.unitX
  | .plane _ _ => V3.unitY
  | .smoothTriangle _ _ _ _ n1 n2 n3 =>
      let p := uv.getD (0, 0)
      n2.smul p.1 + n3.smul p.2 + n1.smul (1 - p.1 - p.2)
  | .sphere _ _ => point.toVec
  | .triangle _ _ _ _ _ _ _ normal => normal

/-- `Shape::normal_at` (`src/shape/mod.rs` lines 176-185): `None` when
the transform is singular, else the renormalized inverse-transpose
image of the local normal. -/
def normalAt (s : Shape K) (point : P3 K) (uv : Option (K × K)) :
    Option (V3 K) :=
  (M4.invert s.transform).map fun i =>
    ((i.transpose.mulV
          ((s.localNormalAt
                (P3.fromHomogeneous (i.mulV point.toHomogeneous)) uv).extend
            0)).truncate).normalize

end Shape

/-- `Point3 - Vector3`. -/
def P3.subV {K : Type} [RtField K] (p : P3 K) (v : V3 K) : P3 K :=
  ⟨p.x - v.x, p.y - v.y, p.z - v.z⟩

namespace LocalIntersect

variable {K : Type} [RtField K]

/-- `cube::check_axis` (`src/shape/cube.rs`): slab bounds on one axis;
near-zero directions multiply the numerators by `T::infinity()`. -/
def cubeCheckAxis (origin direction : K) : K × K :=
  let tminNumerator := -1 - origin
  let tmaxNumerator := 1 - origin
  let (tmin, tmax) :=
    if |direction| ≥ eps then (tminNumerator / direction, tmaxNumerator / direction)
    else (tminNumerator * inf, tmaxNumerator * inf)
  if tmin < tmax then (tmin, tmax) else (tmax, tmin)

/-- `Cube::local_intersect` (`src/shape/cube.rs`). -/
def cube (tf : M4 K) (m : Material K) (ray : Ray K) :
    List (Intersection K) :=
  let (xtmin, xtmax) := cubeCheckAxis ray.origin.x ray.direction.x
  let (ytmin, ytmax) := cubeCheckAxis ray.origin.y ray.direction.y
  let (ztmin, ztmax) := cubeCheckAxis ray.origin.z ray.direction.z
  let tmin := max (max xtmin ytmin) ztmin
  let tmax := min (min xtmax ytmax) ztmax
  if tmin < tmax then
    [⟨tmin, .cube tf m, none⟩, ⟨tmax, .cube tf m, none⟩]
  else []

/-- `Plane::local_intersect` (`src/shape/plane.rs`). -/
def plane (tf : M4 K) (m : Material K) (ray : Ray K) :
    List (Intersection K) :=
  if absDiffEq ray.direction.y 0 then []
  else [⟨-ray.origin.y / ray.direction.y, .plane tf m, none⟩]

/-- `Sphere::local_intersect` (`src/shape/sphere.rs`). -/
def sphere (tf : M4 K) (m : Material K) (ray : Ray K) :
    List (Intersection K) :=
  let sphereToRay := ray.origin.toVec
  let a := ray.direction.dot ray.direction
  let b := ray.direction.dot sphereToRay * 2
  let c := sphereToRay.dot sphereToRay - 1
  let discriminant := b ^ 2 - 4 * a * c
  if discriminant > 0 then
    [⟨(-b - sqrt discriminant) / (2 * a), .sphere tf m, none⟩,
     ⟨(-b + sqrt discriminant) / (2 * a), .sphere tf m, none⟩]
  else if discriminant = 0 then [⟨-b / (2 * a), .sphere tf m, none⟩]
  else []

/-- `Triangle::local_intersect` (`src/shape/triangle.rs`), the
Möller-Trumbore test.  NOTE the source's degeneracy guard is
`abs_diff_ne!(det, T::epsilon())`, i.e. it compares the determinant
against `ε` itself (proceed iff `|det − ε| > ε`), not against zero. -/
def triangle (tf : M4 K) (m : Material K) (p1 p2 p3 : P3 K)
    (e1 e2 normal : V3 K) (ray : Ray K) : List (Intersection K) :=
  let dirCrossE2 := ray.direction.cross e2
  let det := e1.dot dirCrossE2
  if ¬absDiffEq det eps then
    let f := 1 / det
    let p1ToOrigin := ray.origin.sub p1
    let u := f * p1ToOrigin.dot dirCrossE2
    if 0 ≤ u ∧ u ≤ 1 then
      let originCrossE1 := p1ToOrigin.cross e1
      let v := f * ray.direction.dot originCrossE1
      if v ≥ 0 ∧ u + v ≤ 1 then
        let t := f * e2.dot originCrossE1
        [⟨t, .triangle tf m p1 p2 p3 e1 e2 normal, some (u, v)⟩]
      else []
    else []
  else []

/-- `Triangle::from(p1, p2, p3)` (`src/shape/triangle.rs`): identity
transform, default material, derived edges and plane normal. -/
def triangleFrom (p1 p2 p3 : P3 K) : Shape K :=
  let e1 := p2.sub p1
  let e2 := p3.sub p1
  .triangle M4.identity Material.default p1 p2 p3 e1 e2
    (e2.cross e1).normalize

/-- `SmoothTriangle::local_intersect` (`src/shape/smooth_triangle.rs`):
delegate to the equivalent `Triangle`, re-tag with itself keeping
`uv`. -/
def smoothTriangle (m : Material K) (p1 p2 p3 : P3 K) (n1 n2 n3 : V3 K)
    (ray : Ray K) : List (Intersection K) :=
  let e1 := p2.sub p1
  let e2 := p3.sub p1
  (triangle M4.identity Material.default p1 p2 p3 e1 e2
        (e2.cross e1).normalize ray).map
    fun i => ⟨i.t, .smoothTriangle m p1 p2 p3 n1 n2 n3, i.uv⟩

/-- `cylinder::check_cap` (`src/shape/cylinder.rs`). -/
def cylCheckCap (ray : Ray K) (t : K) : Bool :=
  let x := ray.origin.x + t * ray.direction.x
  let z := ray.origin.z + t * ray.direction.z
  x ^ 2 + z ^ 2 ≤ 1

/-- `Cylinder::intersect_caps` (`src/shape/cylinder.rs`). -/
def cylinderCaps (tf : M4 K) (m : Material K) (mn mx : K) (closed : Bool)
    (ray : Ray K) : List (Intersection K) :=
  if closed ∧ ¬absDiffEq ray.direction.y 0 then
    [mn, mx].foldr
      (fun mm acc =>
        let t := (mm - ray.origin.y) / ray.direction.y
        if cylCheckCap ray t then
          ⟨t, .cylinder tf m mn mx closed, none⟩ :: acc
        else acc)
      []
  else []

/-- `Cylinder::local_intersect` (`src/shape/cylinder.rs`). -/
def cylinder (tf : M4 K) (m : Material K) (mn mx : K) (closed : Bool)
    (ray : Ray K) : List (Intersection K) :=
  let a := ray.direction.x ^ 2 + ray.direction.z ^ 2
  if absDiffEq a 0 then cylinderCaps tf m mn mx closed ray
  else
    let b := 2 * (ray.origin.x * ray.direction.x + ray.origin.z * ray.direction.z)
    let c := ray.origin.x ^ 2 + ray.origin.z ^ 2 - 1
    let disc := b ^ 2 - 4 * a * c
    if disc < 0 then []
    else
      let t0 := (-b - sqrt disc) / (2 * a)
      let t1 := (-b + sqrt disc) / (2 * a)
      let y0 := ray.origin.y + t0 * ray.direction.y
      let xs0 : List (Intersection K) :=
        if mn < y0 ∧ y0 < mx then [⟨t0, .cylinder tf m mn mx closed, none⟩]
        else []
      let y1 := ray.origin.y + t1 * ray.direction.y
      let xs1 : List (Intersection K) :=
        if mn < y1 ∧ y1 < mx then [⟨t1, .cylinder tf m mn mx closed, none⟩]
        else []
      sortByT (xs0 ++ xs1 ++ cylinderCaps tf m mn mx closed ray)

/-- `cone::check_cap` (`src/shape/cone.rs`): radius grows with `|y|`. -/
def coneCheckCap (ray : Ray K) (t radius : K) : Bool :=
  let x := ray.origin.x + t * ray.direction.x
  let z := ray.origin.z + t * ray.direction.z
  x ^ 2 + z ^ 2 ≤ radius ^ 2

/-- `Cone::intersect_caps` (`src/shape/cone.rs`). -/
def coneCaps (tf : M4 K) (m : Material K) (mn mx : K) (closed : Bool)
    (ray : Ray K) : List (Intersection K) :=
  if closed ∧ ¬absDiffEq ray.direction.y 0 then
    [mn, mx].foldr
      (fun mm acc =>
        let t := (mm - ray.origin.y) / ray.direction.y
        if coneCheckCap ray t mm then
          ⟨t, .cone tf m mn mx closed, none⟩ :: acc
        else acc)
      []
  else []

/-- `Cone::local_intersect` (`src/shape/cone.rs`). -/
def cone (tf : M4 K) (m : Material K) (mn mx : K) (closed : Bool)
    (ray : Ray K) : List (Intersection K) :=
  let a := ray.direction.x ^ 2 - ray.direction.y ^ 2 + ray.direction.z ^ 2
  let b := 2 * (ray.origin.x * ray.direction.x - ray.origin.y * ray.direction.y
      + ray.origin.z * ray.direction.z)
  let c := ray.origin.x ^ 2 - ray.origin.y ^ 2 + ray.origin.z ^ 2
  let lateral : List (Intersection K) :=
    if absDiffEq a 0 ∧ ¬absDiffEq b 0 then
      [⟨-c / (2 * b), .cone tf m mn mx closed, none⟩]
    else
      let disc := b ^ 2 - 4 * a * c
      if disc < 0 then []
      else
        let t0 := (-b - sqrt disc) / (2 * a)
        let t1 := (-b + sqrt disc) / (2 * a)
        let y0 := ray.origin.y + t0 * ray.direction.y
        let xs0 : List (Intersection K) :=
          if mn < y0 ∧ y0 < mx then [⟨t0, .cone tf m mn mx closed, none⟩]
          else []
        let y1 := ray.origin.y + t1 * ray.direction.y
        let xs1 : List (Intersection K) :=
          if mn < y1 ∧ y1 < mx then [⟨t1, .cone tf m mn mx closed, none⟩]
          else []
        xs0 ++ xs1
  -- the source's early `return vec![]` on negative discriminant skips
  -- the caps only in the quadratic branch; `disc < 0` with caps never
  -- coexist geometrically, and the claims do not touch cones.
  sortByT (lateral ++ coneCaps tf m mn mx closed ray)

end LocalIntersect

/-- `constructive_solid_geometry::intersection_allowed`
(`src/shape/constructive_solid_geometry.rs` lines 19-25). -/
def intersectionAllowed (op : Op) (lhit inl inr : Bool) : Bool :=
  match op with
  | .union => (lhit && !inr) || (!lhit && !inl)
  | .intersect => (lhit && inr) || (!lhit && inl)
  | .difference => (lhit && !inr) || (!lhit && inl)

/-- The sweep loop of
`ConstructiveSolidGeometry::filter_intersections`: classify each hit
with `left.includes`, keep it when `intersection_allowed` says so, then
toggle `inl` (left hit) or `inr` (otherwise). -/
def filterLoop {K : Type} [RtField K] (op : Op) (left : Shape K) :
    List (Intersection K) → Bool → Bool → List (Intersection K)
  | [], _, _ => []
  | i :: rest, inl, inr =>
    let lhit := left.includes i.object
    let keep := intersectionAllowed op lhit inl inr
    let inl' := if lhit then !inl else inl
    let inr' := if lhit then inr else !inr
    if keep then i :: filterLoop op left rest inl' inr'
    else filterLoop op left rest inl' inr'

/-- `ConstructiveSolidGeometry::filter_intersections`: the sweep starts
with `inl = inr = false`. -/
def filterIntersections {K : Type} [RtField K] (op : Op) (left : Shape K)
    (xs : List (Intersection K)) : List (Intersection K) :=
  filterLoop op left xs false false

mutual

/-- `Shape::intersect` (`src/shape/mod.rs` lines 157-174): invert the
shape's transform — a singular transform yields no intersections —
transform the ray into local space and dispatch on the variant. -/
def Shape.intersect {K : Type} [RtField K] :
    Shape K → Ray K → List (Intersection K)
  | s, ray =>
    match M4.invert s.transform with
    | none => []
    | some iv =>
      let r := ray.transform iv
      match s with
      | .cone tf m mn mx cl => LocalIntersect.cone tf m mn mx cl r
      | .csg _ op l rgt =>
          filterIntersections op l
            (sortByT (Shape.intersect l r ++ Shape.intersect rgt r))
      | .cube tf m => LocalIntersect.cube tf m r
      | .cylinder tf m mn mx cl => LocalIntersect.cylinder tf m mn mx cl r
      | .group _ children => sortByT (childrenIntersect children r)
      | .plane tf m => LocalIntersect.plane tf m r
      | .smoothTriangle m p1 p2 p3 n1 n2 n3 =>
          LocalIntersect.smoothTriangle m p1 p2 p3 n1 n2 n3 r
      | .sphere tf m => LocalIntersect.sphere tf m r
      | .triangle tf m p1 p2 p3 e1 e2 n =>
          LocalIntersect.triangle tf m p1 p2 p3 e1 e2 n r

/-- `Group::local_intersect` (`src/shape/group.rs`): flat-map the
children's `intersect` (each child applies its own transform). -/
def childrenIntersect {K : Type} [RtField K] :
    ShapeList K → Ray K → List (Intersection K)
  | .nil, _ => []
  | .cons c rest, r => Shape.intersect c r ++ childrenIntersect rest r

end

/-- `computation::Computation<T>`. -/
structure Computation (K : Type) where
  t : K
  object : Shape K
  point : P3 K
  eyev : V3 K
  normalv : V3 K
  inside : Bool
  reflectv : V3 K
  n1 : K
  n2 : K
deriving DecidableEq, Repr

namespace Computation

variable {K : Type} [RtField K]

/-- `Computation::over_point`. -/
def overPoint (c : Computation K) : P3 K :=
  c.point.addV (c.normalv.smul eps)

/-- `Computation::under_point`. -/
def underPoint (c : Computation K) : P3 K :=
  c.point.subV (c.normalv.smul eps)

/-- `Computation::n_ratio`. -/
def nRatio (c : Computation K) : K := c.n1 / c.n2

/-- `Computation::cos_i`. -/
def cosI (c : Computation K) : K := c.eyev.dot c.normalv

/-- `Computation::sin2_t`. -/
def sin2T (c : Computation K) : K := c.nRatio ^ 2 * (1 - c.cosI ^ 2)

/-- `Computation::cos_t`. -/
def cosT (c : Computation K) : K := sqrt (1 - c.sin2T)

/-- `Computation::schlick` (`src/computation.rs` lines 42-56). -/
def schlick (c : Computation K) : K :=
  if c.n1 > c.n2 ∧ c.sin2T > 1 then 1
  else
    let cos := if c.n1 > c.n2 then c.cosT else c.cosI
    let r0t := (c.n1 - c.n2) / (c.n1 + c.n2)
    let r0 := r0t ^ 2
    r0 + (1 - r0) * (1 - cos) ^ 5

end Computation

/-- The last element of the container stack mapped to its refractive
index: `containers.last().map(|i| i.material().unwrap()
.refractive_index)`. -/
def lastRefractive {K : Type} [RtField K] (containers : List (Shape K)) :
    Option K :=
  containers.getLast?.map fun s => (Material.unwrapD s.material).refractiveIndex

/-- One toggle of the "currently inside" stack: remove the first
occurrence of the hit object if present
(`containers.iter().position(..)` + `remove`), else push it. -/
def toggleContainers {K : Type} [RtField K] (containers : List (Shape K))
    (obj : Shape K) : List (Shape K) :=
  if obj ∈ containers then containers.erase obj else containers ++ [obj]

/-- The refractive-index walk of `Intersection::precompute`
(`src/intersection.rs` lines 24-44): sweep the full sorted list, record
the stack top as `n1` just before toggling the target's object and as
`n2` just after, stopping there; a sweep that never meets the target
leaves both unset. -/
def precomputeWalk {K : Type} [RtField K] (self : Intersection K) :
    List (Intersection K) → List (Shape K) → Option K × Option K
  | [], _ => (none, none)
  | i :: rest, containers =>
    if self = i then
      (lastRefractive containers,
       lastRefractive (toggleContainers containers i.object))
    else precomputeWalk self rest (toggleContainers containers i.object)

/-- `Intersection::precompute` (`src/intersection.rs` lines 17-57):
`None` exactly when `normal_at` fails; otherwise the shading record
with the walked `n1`/`n2` defaulting to vacuum (`unwrap_or(1)`). -/
def Intersection.precompute {K : Type} [RtField K] (self : Intersection K)
    (ray : Ray K) (xs : List (Intersection K)) : Option (Computation K) :=
  let point := ray.position self.t
  let eyev := -ray.direction
  (self.object.normalAt point self.uv).map fun tNormalv =>
    let inside := tNormalv.dot eyev < 0
    let normalv := if inside then -tNormalv else tNormalv
    let reflectv := reflect ray.direction normalv
    let (n1, n2) := precomputeWalk self xs []
    ⟨self.t, self.object, point, eyev, normalv, inside, reflectv,
     n1.getD 1, n2.getD 1⟩

/-- `Material::lighting` (`src/material.rs`), the Phong formula; the
spec (§6) specifies it only as an external collaborator. -/
def Material.lighting {K : Type} [RtField K] (mat : Material K)
    (light : Light K) (point : P3 K) (eyev normalv : V3 K)
    (inShadow : Bool) : RGB K :=
  let effectiveColor := mat.pattern.atPoint point * light.intensity
  let lightv := (light.position.sub point).normalize
  let ambient := RGB.smul effectiveColor mat.ambient
  let lightDotNormal := lightv.dot normalv
  let (diffuse, specular) :=
    if ¬inShadow ∧ lightDotNormal ≥ 0 then
      let d := RGB.smul (RGB.smul effectiveColor mat.diffuse) lightDotNormal
      let reflectv := reflect (-lightv) normalv
      let reflectDotEye := reflectv.dot eyev
      if reflectDotEye > 0 then
        (d, RGB.smul (RGB.smul light.intensity mat.specular)
              (powf reflectDotEye mat.shininess))
      else (d, RGB.default)
    else (RGB.default, RGB.default)
  ambient + diffuse + specular

/-- `world::RECURSION_LIMIT`. -/
def recursionLimit : Nat := 5

/-- `world::World<T>` minus its `recursion: u8` field: the source
stores the remaining depth as mutable state on the struct
(`src/world.rs` line 19, §9 of the spec); the embedding threads that
counter through every shading function as an explicit `rec` argument
with the returned value of the counter alongside each color. -/
structure World (K : Type) where
  light : Light K
  objects : List (Shape K)
deriving Repr

namespace World

variable {K : Type} [RtField K]

/-- `World::intersect`: flat-map all top-level shapes, sort by `t`. -/
def wIntersect (w : World K) (ray : Ray K) : List (Intersection K) :=
  sortByT (w.objects.flatMap fun s => s.intersect ray)

/-- `World::is_shadowed` (`src/world.rs` lines 100-107). -/
def isShadowed (w : World K) (point : P3 K) : Bool :=
  let v := (w.light.position.sub point)
  let distance := v.magnitude
  let direction := v.normalize
  match hit (w.wIntersect ⟨point, direction⟩) with
  | some h => decide (h.t < distance)
  | none => false

mutual

/-- `World::color_at` (`src/world.rs` lines 87-98), fuel-indexed: the
mutable-state recursion of the source becomes structural recursion on
`fuel`, with `none` meaning "fuel exhausted before the source's own
termination conditions fired"; `rec` is the threaded `recursion`
field. -/
def colorAtF (fuel : Nat) (w : World K) (rec : Nat) (ray : Ray K) :
    Option (RGB K × Nat) :=
  match fuel with
  | 0 => none
  | fuel' + 1 =>
    let xs := w.wIntersect ray
    match hit xs with
    | some i =>
      match i.precompute ray xs with
      | some comps => shadeHitF fuel' w rec comps
      | none => some (RGB.default, rec)
    | none => some (RGB.default, rec)
termination_by (fuel, 0)

/-- `World::shade_hit` (`src/world.rs` lines 55-73). -/
def shadeHitF (fuel : Nat) (w : World K) (rec : Nat)
    (comps : Computation K) : Option (RGB K × Nat) :=
  let shadowed := w.isShadowed comps.overPoint
  let material := Material.unwrapD comps.object.material
  let surface :=
    material.lighting w.light comps.overPoint comps.eyev comps.normalv
      shadowed
  match reflectedColorF fuel w rec comps with
  | none => none
  | some (reflected, rec1) =>
    match refractedColorF fuel w rec1 comps with
    | none => none
    | some (refracted, rec2) =>
      if material.reflective > 0 ∧ material.transparency > 0 then
        let reflectance := comps.schlick
        some (surface + RGB.smul reflected reflectance +
            RGB.smul refracted (1 - reflectance), rec2)
      else some (surface + reflected + refracted, rec2)
termination_by (fuel, 3)

/-- `World::reflected_color` (`src/world.rs` lines 109-121): on a zero
budget or a non-reflective material, reset the counter to
`RECURSION_LIMIT` and return black; else decrement and recurse. -/
def reflectedColorF (fuel : Nat) (w : World K) (rec : Nat)
    (comps : Computation K) : Option (RGB K × Nat) :=
  let r := (Material.unwrapD comps.object.material).reflective
  if rec = 0 ∨ r = 0 then some (RGB.default, recursionLimit)
  else
    match colorAtF fuel w (rec - 1) ⟨comps.overPoint, comps.reflectv⟩ with
    | none => none
    | some (color, rec') => some (RGB.smul color r, rec')
termination_by (fuel, 2)

/-- `World::refracted_color` (`src/world.rs` lines 123-140): zero
budget or zero transparency resets the counter and returns black;
total internal reflection (`sin2_t > 1`) returns black; otherwise cast
the Snell ray from `under_point` and scale by the transparency. -/
def refractedColorF (fuel : Nat) (w : World K) (rec : Nat)
    (comps : Computation K) : Option (RGB K × Nat) :=
  let material := Material.unwrapD comps.object.material
  if rec = 0 ∨ material.transparency = 0 then
    some (RGB.default, recursionLimit)
  else if comps.sin2T > 1 then some (RGB.default, rec)
  else
    let direction :=
      comps.normalv.smul (comps.nRatio * comps.cosI - comps.cosT) -
        comps.eyev.smul comps.nRatio
    match colorAtF fuel w (rec - 1) ⟨comps.underPoint, direction⟩ with
    | none => none
    | some (color, rec') =>
      some (RGB.smul color material.transparency, rec')
termination_by (fuel, 1)

end

end World

/-- The glass test sphere of the `schlick` test in
`src/computation.rs`: a default sphere whose material has
`transparency = 1.0` and `refractive_index = 1.5`. -/
def glassSphere {K : Type} [RtField K] : Shape K :=
  .sphere M4.identity
    { Material.default with transparency := 1, refractiveIndex := 3 / 2 }

/-! Helper lemmas (definitions end here; everything below is proofs). -/

section Lemmas

theorem eps_rat : (eps : ℚ) = 1 / 8388608 := rfl

variable {K : Type} [RtField K]

theorem v3_neg_def (v : V3 K) : -v = ⟨-v.x, -v.y, -v.z⟩ := rfl

theorem v3_add_def (a b : V3 K) : a + b = ⟨a.x + b.x, a.y + b.y, a.z + b.z⟩ :=
  rfl

theorem v3_sub_def (a b : V3 K) : a - b = ⟨a.x - b.x, a.y - b.y, a.z - b.z⟩ :=
  rfl

theorem rgb_add_def (a b : RGB K) :
    a + b = ⟨a.r + b.r, a.g + b.g, a.b + b.b⟩ := rfl

theorem rgb_mul_def (a b : RGB K) :
    a * b = ⟨a.r * b.r, a.g * b.g, a.b * b.b⟩ := rfl

theorem sqrt_one_rat : sqrt (1 : ℚ) = 1 := rfl

theorem sqrt_real (x : ℝ) : sqrt x = Real.sqrt x := rfl

theorem M4.invert_identity : M4.invert (M4.identity : M4 K) = some M4.identity := by
  norm_num [M4.invert, M4.det, M4.det3, M4.adjugate, M4.scale, M4.identity]

theorem precomputeWalk_not_mem (self : Intersection K) :
    ∀ (xs : List (Intersection K)) (cs : List (Shape K)), self ∉ xs →
      precomputeWalk self xs cs = (none, none) := by
  intro xs
  induction xs with
  | nil => intro cs _; rfl
  | cons i rest ih =>
    intro cs hmem
    rw [precomputeWalk, if_neg (by simp at hmem; exact hmem.1)]
    exact ih _ (by simp at hmem; exact hmem.2)

theorem rustMinStep_none {α : Type} (key : α → K) (i : α) :
    rustMinStep key (none : Option α) i = some i := rfl

theorem rustMinStep_some {α : Type} (key : α → K) (c i : α) :
    rustMinStep key (some c) i = if key c > key i then some i else some c :=
  rfl

theorem rustMinBy_step_mem {α : Type} (key : α → K) (l : List α)
    (acc : Option α) (a : α)
    (h : List.foldl (rustMinStep key) acc l = some a) :
    acc = some a ∨ a ∈ l := by
  induction l generalizing acc with
  | nil => exact Or.inl h
  | cons i rest ih =>
    simp only [List.foldl_cons] at h
    rcases ih _ h with h' | h'
    · match acc with
      | none =>
        rw [rustMinStep_none] at h'
        injection h' with h''
        exact Or.inr (by simp [← h''])
      | some m =>
        rw [rustMinStep_some] at h'
        split at h'
        · injection h' with h''
          exact Or.inr (by simp [← h''])
        · exact Or.inl (by rw [h'])
    · exact Or.inr (List.mem_cons_of_mem _ h')

theorem rustMinBy_step_le {α : Type} (key : α → K) (l : List α)
    (acc : Option α) (a : α)
    (h : List.foldl (rustMinStep key) acc l = some a) :
    (∀ b, acc = some b → key a ≤ key b) ∧ ∀ j ∈ l, key a ≤ key j := by
  induction l generalizing acc with
  | nil =>
    refine ⟨fun b hb => ?_, by simp⟩
    rw [hb] at h
    injection h with h'
    rw [h']
  | cons i rest ih =>
    simp only [List.foldl_cons] at h
    obtain ⟨c, hceq, hci, hcacc⟩ :
        ∃ c, rustMinStep key acc i = some c ∧
          key c ≤ key i ∧ ∀ b, acc = some b → key c ≤ key b := by
      match acc with
      | none => exact ⟨i, rfl, le_refl _, by simp⟩
      | some m =>
        by_cases hgt : key m > key i
        · refine ⟨i, by rw [rustMinStep_some, if_pos hgt], le_refl _,
            fun b hb => ?_⟩
          injection hb with hb'
          subst hb'
          exact le_of_lt hgt
        · refine ⟨m, by rw [rustMinStep_some, if_neg hgt],
            le_of_not_lt hgt, fun b hb => ?_⟩
          injection hb with hb'
          subst hb'
          exact le_refl _
    rw [hceq] at h
    have step := ih (some c) h
    have hac : key a ≤ key c := step.1 c rfl
    refine ⟨fun b hb => le_trans hac (hcacc b hb), fun j hj => ?_⟩
    rcases List.mem_cons.mp hj with h' | h'
    · subst h'
      exact le_trans hac hci
    · exact step.2 j h'

theorem rustMinBy_step_isSome {α : Type} (key : α → K) (l : List α)
    (c : α) :
    (List.foldl (rustMinStep key) (some c) l).isSome := by
  induction l generalizing c with
  | nil => rfl
  | cons i rest ih =>
    rw [List.foldl_cons, rustMinStep_some]
    by_cases hgt : key c > key i
    · rw [if_pos hgt]
      exact ih i
    · rw [if_neg hgt]
      exact ih c

theorem rustMinBy_mem {α : Type} (key : α → K) (l : List α) (a : α)
    (h : rustMinBy key l = some a) : a ∈ l := by
  rcases rustMinBy_step_mem key l none a h with h' | h'
  · exact absurd h' (by simp)
  · exact h'

theorem rustMinBy_le {α : Type} (key : α → K) (l : List α) (a : α)
    (h : rustMinBy key l = some a) : ∀ j ∈ l, key a ≤ key j :=
  (rustMinBy_step_le key l none a h).2

theorem rustMinBy_eq_none {α : Type} (key : α → K) (l : List α) :
    rustMinBy key l = none ↔ l = [] := by
  constructor
  · intro h
    match l with
    | [] => rfl
    | i :: rest =>
      unfold rustMinBy at h
      rw [List.foldl_cons, rustMinStep_none] at h
      have := rustMinBy_step_isSome key rest i
      rw [h] at this
      exact absurd this (by simp)
  · intro h
    subst h
    rfl

theorem mem_insertT (l : List (Intersection K)) (i a : Intersection K) :
    a ∈ insertT l i ↔ a = i ∨ a ∈ l := by
  induction l with
  | nil => simp [insertT]
  | cons j rest ih =>
    rw [insertT]
    split
    · simp [or_comm, or_assoc, or_left_comm]
    · simp only [List.mem_cons, ih]
      tauto

theorem mem_foldl_insertT (l : List (Intersection K)) :
    ∀ (acc : List (Intersection K)) (a : Intersection K),
      a ∈ List.foldl insertT acc l ↔ a ∈ acc ∨ a ∈ l := by
  induction l with
  | nil => simp
  | cons j rest ih =>
    intro acc a
    rw [List.foldl_cons, ih, mem_insertT]
    simp only [List.mem_cons]
    tauto

theorem mem_sortByT (v : List (Intersection K)) (a : Intersection K) :
    a ∈ sortByT v ↔ a ∈ v := by
  rw [sortByT, mem_foldl_insertT]
  simp

theorem plane_intersect_object (tf : M4 K) (m : Material K) (ray : Ray K) :
    ∀ i ∈ (Shape.plane tf m).intersect ray, i.object = Shape.plane tf m := by
  intro i hi
  rw [Shape.intersect] at hi
  simp only [Shape.transform] at hi
  split at hi
  · exact absurd hi (by simp)
  · rw [LocalIntersect.plane] at hi
    split at hi
    · exact absurd hi (by simp)
    · simp only [List.mem_singleton] at hi
      rw [hi]

theorem wIntersect_opaque_plane (w : World K)
    (hw : ∀ s ∈ w.objects,
      ∃ tf m, s = Shape.plane tf m ∧ m.transparency = 0) (ray : Ray K) :
    ∀ i ∈ w.wIntersect ray,
      ∃ tf m, i.object = Shape.plane tf m ∧ m.transparency = 0 := by
  intro i hi
  rw [World.wIntersect, mem_sortByT, List.mem_flatMap] at hi
  obtain ⟨s, hs, his⟩ := hi
  obtain ⟨tf, m, rfl, htr⟩ := hw s hs
  exact ⟨tf, m, plane_intersect_object tf m ray i his, htr⟩

theorem precompute_object (i : Intersection K) (ray : Ray K)
    (xs : List (Intersection K)) (comps : Computation K)
    (h : i.precompute ray xs = some comps) : comps.object = i.object := by
  rw [Intersection.precompute] at h
  obtain ⟨v, _, hc⟩ := Option.map_eq_some.mp h
  rw [← hc]

theorem hit_some_spec (v : List (Intersection K)) (i : Intersection K)
    (h : hit v = some i) :
    i ∈ v ∧ eps ≤ i.t ∧ ∀ j ∈ v, eps ≤ j.t → i.t ≤ j.t := by
  have hmem := rustMinBy_mem _ _ _ h
  have hle := rustMinBy_le _ _ _ h
  rw [List.mem_filter] at hmem
  refine ⟨hmem.1, by simpa using of_decide_eq_true hmem.2, fun j hj hjt => ?_⟩
  exact hle j (List.mem_filter.mpr ⟨hj, decide_eq_true hjt⟩)

theorem hit_none_iff (v : List (Intersection K)) :
    hit v = none ↔ ∀ j ∈ v, j.t < eps := by
  unfold hit
  rw [rustMinBy_eq_none, List.filter_eq_nil_iff]
  constructor
  · intro h j hj
    have := h j hj
    simpa using not_le.mp (by simpa using this)
  · intro h j hj
    simpa using not_le.mpr (h j hj)

end Lemmas

/-- C1: `hit` returns the intersection with the smallest `t` above the
tiny positive threshold `f32::EPSILON` (every `t` at or above the
threshold is kept, so over machine floats the kept set is exactly the
set of `t` strictly above the threshold's predecessor; negative and
grazing hits are rejected), or none when no such intersection exists;
in particular `hit [t=1, t=2]` is the `t=1` intersection,
`hit [t=-1, t=1]` is the `t=1` intersection, and `hit [t=-2, t=-1]` is
none. -/
theorem C1_hit_min_above_epsilon :
    (∀ v : List (Intersection ℚ),
      (∀ i, hit v = some i →
        i ∈ v ∧ eps ≤ i.t ∧ ∀ j ∈ v, eps ≤ j.t → i.t ≤ j.t) ∧
      (hit v = none ↔ ∀ j ∈ v, j.t < eps)) ∧
    hit ([⟨1, .sphere M4.identity Material.default, none⟩,
        ⟨2, .sphere M4.identity Material.default, none⟩] :
          List (Intersection ℚ)) =
      some ⟨1, .sphere M4.identity Material.default, none⟩ ∧
    hit ([⟨-1, .sphere M4.identity Material.default, none⟩,
        ⟨1, .sphere M4.identity Material.default, none⟩] :
          List (Intersection ℚ)) =
      some ⟨1, .sphere M4.identity Material.default, none⟩ ∧
    hit ([⟨-2, .sphere M4.identity Material.default, none⟩,
        ⟨-1, .sphere M4.identity Material.default, none⟩] :
          List (Intersection ℚ)) = none := by
  refine ⟨fun v => ⟨fun i h => hit_some_spec v i h, hit_none_iff v⟩,
    ?_, ?_, ?_⟩ <;>
    norm_num [hit, rustMinBy, rustMinStep, eps_rat, List.filter_cons,
      List.filter_nil]

/-- C4: the CSG sweep starts with `inL = inR = false`, keeps a hit per
the `intersection_allowed` truth table (Union: `(lhit ∧ ¬inR) ∨ (¬lhit
∧ ¬inL)`; Intersect: `(lhit ∧ inR) ∨ (¬lhit ∧ inL)`; Difference:
`(lhit ∧ ¬inR) ∨ (¬lhit ∧ inL)`), then toggles `inL` when the left
operand produced the hit and `inR` otherwise; on the ordered hits
`[sphere@1, cube@2, sphere@3, cube@4]` of a sphere-cube CSG node,
Union keeps indices {0,3}, Intersect keeps {1,2}, Difference keeps
{0,1}, in original `t` order. -/
theorem C4_csg_filter_table :
    (∀ lhit inl inr : Bool,
      (intersectionAllowed .union lhit inl inr = true ↔
        ((lhit ∧ ¬inr) ∨ (¬lhit ∧ ¬inl))) ∧
      (intersectionAllowed .intersect lhit inl inr = true ↔
        ((lhit ∧ inr) ∨ (¬lhit ∧ inl))) ∧
      (intersectionAllowed .difference lhit inl inr = true ↔
        ((lhit ∧ ¬inr) ∨ (¬lhit ∧ inl)))) ∧
    (filterIntersections .union (.sphere M4.identity Material.default)
        ([⟨1, .sphere M4.identity Material.default, none⟩,
          ⟨2, .cube M4.identity Material.default, none⟩,
          ⟨3, .sphere M4.identity Material.default, none⟩,
          ⟨4, .cube M4.identity Material.default, none⟩] :
            List (Intersection ℚ)) =
      [⟨1, .sphere M4.identity Material.default, none⟩,
        ⟨4, .cube M4.identity Material.default, none⟩]) ∧
    (filterIntersections .intersect (.sphere M4.identity Material.default)
        ([⟨1, .sphere M4.identity Material.default, none⟩,
          ⟨2, .cube M4.identity Material.default, none⟩,
          ⟨3, .sphere M4.identity Material.default, none⟩,
          ⟨4, .cube M4.identity Material.default, none⟩] :
            List (Intersection ℚ)) =
      [⟨2, .cube M4.identity Material.default, none⟩,
        ⟨3, .sphere M4.identity Material.default, none⟩]) ∧
    (filterIntersections .difference (.sphere M4.identity Material.default)
        ([⟨1, .sphere M4.identity Material.default, none⟩,
          ⟨2, .cube M4.identity Material.default, none⟩,
          ⟨3, .sphere M4.identity Material.default, none⟩,
          ⟨4, .cube M4.identity Material.default, none⟩] :
            List (Intersection ℚ)) =
      [⟨1, .sphere M4.identity Material.default, none⟩,
        ⟨2, .cube M4.identity Material.default, none⟩]) := by
  have hne : (Shape.sphere (M4.identity : M4 ℚ) Material.default) ≠
      Shape.cube M4.identity Material.default := fun h => Shape.noConfusion h
  refine ⟨fun lhit inl inr => ?_, ?_, ?_, ?_⟩
  · cases lhit <;> cases inl <;> cases inr <;>
      simp [intersectionAllowed]
  all_goals
    norm_num [filterIntersections, filterLoop, Shape.includes,
      intersectionAllowed, hne]

/-- C10: `Cube::local_normal_at` picks the axis of maximal absolute
coordinate, resolving ties deterministically in favor of `x` first and
then `y` (the `x` branch fires whenever `|x|` attains the maximum, the
`y` branch whenever `|y|` attains it but `|x|` does not); at the corner
`(1,1,1)` the normal is `+x` and at `(-1,-1,-1)` it is `-x`, and at the
`y`/`z` tie `(0,1,1)` it is `+y`. -/
theorem C10_cube_normal_tiebreak :
    (∀ (tf : M4 ℚ) (m : Material ℚ) (p : P3 ℚ),
      (max (max |p.x| |p.y|) |p.z| = |p.x| →
        (Shape.cube tf m).localNormalAt p none = ⟨p.x, 0, 0⟩) ∧
      (max (max |p.x| |p.y|) |p.z| ≠ |p.x| →
        max (max |p.x| |p.y|) |p.z| = |p.y| →
        (Shape.cube tf m).localNormalAt p none = ⟨0, p.y, 0⟩)) ∧
    (Shape.cube (M4.identity : M4 ℚ)
        Material.default).localNormalAt ⟨1, 1, 1⟩ none = V3.unitX ∧
    (Shape.cube (M4.identity : M4 ℚ)
        Material.default).localNormalAt ⟨-1, -1, -1⟩ none = -V3.unitX ∧
    (Shape.cube (M4.identity : M4 ℚ)
        Material.default).localNormalAt ⟨0, 1, 1⟩ none = V3.unitY := by
  refine ⟨fun tf m p => ⟨fun h => ?_, fun h1 h2 => ?_⟩, ?_, ?_, ?_⟩
  · simp [Shape.localNormalAt, h, V3.unitX, V3.smul]
  · have hxy : |p.y| ≠ |p.x| := by rw [h2] at h1; exact h1
    simp [Shape.localNormalAt, h1, h2, hxy, V3.unitY, V3.smul]
  all_goals
    norm_num [Shape.localNormalAt, V3.unitX, V3.unitY, V3.smul, v3_neg_def]

/-- C8: for every shape and every world-space ray, a non-invertible
shape transform makes `Shape::intersect` return the empty intersection
list (the degenerate algebra is reported as "no intersection", not as
an error: the function is total and yields `[]`). -/
theorem C8_singular_transform_empty (s : Shape ℚ) (ray : Ray ℚ)
    (h : M4.invert s.transform = none) : s.intersect ray = [] := by
  rw [Shape.intersect, h]

/-- Witness for C8: the all-zero transform on a sphere is singular and
`intersect` returns `[]`. -/
theorem C8_singular_transform_empty_witness :
    M4.invert (Shape.transform
        (Shape.sphere (M4.mk 0 0 0 0 0 0 0 0 0 0 0 0 0 0 0 0)
          Material.default : Shape ℚ)) = none ∧
    (Shape.sphere (M4.mk 0 0 0 0 0 0 0 0 0 0 0 0 0 0 0 0)
        Material.default : Shape ℚ).intersect
      ⟨⟨0, 0, -5⟩, ⟨0, 0, 1⟩⟩ = [] :=
  ⟨by norm_num [M4.invert, M4.det, M4.det3, Shape.transform],
   C8_singular_transform_empty _ _
     (by norm_num [M4.invert, M4.det, M4.det3, Shape.transform])⟩

/-- C5: `refracted_color` returns black whenever the hit material's
transparency is 0 or the remaining recursion budget is 0 (regardless of
geometry), and also returns black under total internal reflection
(`sin2_t > 1`). -/
theorem C5_refracted_zero_cases (fuel : Nat) (w : World ℚ) (rec : Nat)
    (comps : Computation ℚ) :
    (rec = 0 ∨ (Material.unwrapD comps.object.material).transparency = 0 →
      World.refractedColorF fuel w rec comps =
        some (RGB.default, recursionLimit)) ∧
    ((Material.unwrapD comps.object.material).transparency ≠ 0 →
      rec ≠ 0 → comps.sin2T > 1 →
      World.refractedColorF fuel w rec comps = some (RGB.default, rec)) := by
  constructor
  · intro h
    rw [World.refractedColorF, if_pos h]
  · intro ht hrec hsin
    rw [World.refractedColorF, if_neg (by push_neg; exact ⟨hrec, ht⟩),
      if_pos hsin]

/-- Witness for C5: a default (opaque) sphere computation returns black
at budget 3, and a total-internal-reflection computation (n1 = 2,
n2 = 1, grazing geometry, transparent material) returns black. -/
theorem C5_refracted_zero_cases_witness :
    World.refractedColorF 1 (⟨⟨⟨0, 0, 0⟩, ⟨1, 1, 1⟩⟩, []⟩ : World ℚ) 3
      (⟨1, .sphere M4.identity Material.default, ⟨0, 0, 1⟩, ⟨0, 0, -1⟩,
        ⟨0, 0, 1⟩, false, ⟨0, 0, 1⟩, 1, 1⟩ : Computation ℚ) =
      some (RGB.default, recursionLimit) ∧
    World.refractedColorF 1 (⟨⟨⟨0, 0, 0⟩, ⟨1, 1, 1⟩⟩, []⟩ : World ℚ) 3
      (⟨1, .sphere M4.identity
          ⟨.solid ⟨1, 1, 1⟩, 1/10, 9/10, 9/10, 200, 0, 1, 3/2⟩,
        ⟨0, 0, 1⟩, ⟨0, 1, 0⟩, ⟨1, 0, 0⟩, false, ⟨0, 0, 1⟩, 2, 1⟩ :
          Computation ℚ) =
      some (RGB.default, 3) :=
  ⟨(C5_refracted_zero_cases 1 _ 3 _).1
      (Or.inr (by simp [Shape.material, Material.unwrapD, Material.default])),
   (C5_refracted_zero_cases 1 _ 3 _).2
      (by simp [Shape.material, Material.unwrapD])
      (by simp)
      (by norm_num [Computation.sin2T, Computation.nRatio, Computation.cosI,
        V3.dot])⟩

/-- C2 counterexample: calling `precompute` with a target intersection
that is absent from the supplied list is NOT a fail-fast error: at the
explicit input `i = (t=1, unit sphere)`, `ray = ((0,0,0) → +z)` and
the empty full list (which certainly does not contain `i`), `precompute`
succeeds and returns the ordinary shading record with both refractive
indices silently defaulted to vacuum (`n1 = n2 = 1`). -/
theorem C2_precompute_absent_counterexample :
    (⟨1, .sphere M4.identity Material.default, none⟩ : Intersection ℚ) ∉
      ([] : List (Intersection ℚ)) ∧
    Intersection.precompute
        (⟨1, .sphere M4.identity Material.default, none⟩ : Intersection ℚ)
        ⟨⟨0, 0, 0⟩, ⟨0, 0, 1⟩⟩ [] =
      some ⟨1, .sphere M4.identity Material.default, ⟨0, 0, 1⟩,
        ⟨0, 0, -1⟩, ⟨0, 0, -1⟩, true, ⟨0, 0, -1⟩, 1, 1⟩ := by
  refine ⟨by simp, ?_⟩
  rw [Intersection.precompute, Shape.normalAt]
  simp only [Shape.transform]
  rw [M4.invert_identity]
  norm_num [Shape.localNormalAt, M4.identity, M4.mulV, M4.transpose,
    P3.toHomogeneous, P3.fromHomogeneous, P3.toVec, Ray.position,
    P3.addV, V3.smul, V3.dot, V3.extend, V4.truncate, V3.normalize,
    V3.magnitude, precomputeWalk, reflect, v3_neg_def, v3_sub_def,
    sqrt_one_rat]

/-- C2 amended: every `precompute` call whose target is absent from
the supplied full intersection list (and whose shape transform is
invertible, so `normal_at` succeeds) returns an ordinary `Computation`
whose refractive-index walk never finds the target, leaving `n1` and
`n2` silently defaulted to vacuum (1.0); there is no fail-fast. -/
theorem C2_precompute_absent_defaults_vacuum (i : Intersection ℚ)
    (ray : Ray ℚ) (xs : List (Intersection ℚ)) (hmem : i ∉ xs)
    (hdet : M4.det i.object.transform ≠ 0) :
    ∃ c, i.precompute ray xs = some c ∧ c.n1 = 1 ∧ c.n2 = 1 := by
  rw [Intersection.precompute, Shape.normalAt, M4.invert, if_neg hdet]
  rw [precomputeWalk_not_mem i xs [] hmem]
  exact ⟨_, rfl, rfl, rfl⟩

/-- Witness for the amended C2: the counterexample's concrete input
satisfies both hypotheses. -/
theorem C2_precompute_absent_defaults_vacuum_witness :
    ∃ c, Intersection.precompute
        (⟨1, .sphere M4.identity Material.default, none⟩ : Intersection ℚ)
        ⟨⟨0, 0, 0⟩, ⟨0, 0, 1⟩⟩ [] = some c ∧ c.n1 = 1 ∧ c.n2 = 1 :=
  C2_precompute_absent_defaults_vacuum _ _ _ (by simp)
    (by norm_num [Shape.transform, M4.det, M4.det3, M4.identity])

/-- C6: the Möller-Trumbore degeneracy guard misbehaves.  The source
tests `abs_diff_ne!(det, T::epsilon())` — it compares `det` against
`ε` itself instead of against zero, so it proceeds iff `|det − ε| > ε`.
At the explicit ray `((1/4, 1/4, 1) → (0, 0, ε/2))` against the unit
right triangle, `det = −ε/2` has `|det| < ε` (the claim and the spec
demand "no intersection"), yet the code solves the system and returns
one intersection with `t = −2/ε = −16777216` and `(u, v) = (1/4, 1/4)`;
conversely at direction `(0, 0, −3ε/2)`, `det = 3ε/2` has `|det| > ε`
(the claim demands a solved intersection — `u = v = 1/4` is in range),
yet the code reports no intersection. -/
theorem C6_triangle_epsilon_guard_bug :
    (|V3.dot ⟨1, 0, 0⟩
        (V3.cross ⟨0, 0, (1 : ℚ)/16777216⟩ ⟨0, 1, 0⟩)| < eps ∧
      LocalIntersect.triangle (M4.identity : M4 ℚ) Material.default
          ⟨0, 0, 0⟩ ⟨1, 0, 0⟩ ⟨0, 1, 0⟩ ⟨1, 0, 0⟩ ⟨0, 1, 0⟩ ⟨0, 0, -1⟩
          ⟨⟨1/4, 1/4, 1⟩, ⟨0, 0, 1/16777216⟩⟩ =
        [⟨-16777216, .triangle M4.identity Material.default
            ⟨0, 0, 0⟩ ⟨1, 0, 0⟩ ⟨0, 1, 0⟩ ⟨1, 0, 0⟩ ⟨0, 1, 0⟩ ⟨0, 0, -1⟩,
          some (1/4, 1/4)⟩]) ∧
    (|V3.dot ⟨1, 0, 0⟩
        (V3.cross ⟨0, 0, -(3 : ℚ)/16777216⟩ ⟨0, 1, 0⟩)| > eps ∧
      LocalIntersect.triangle (M4.identity : M4 ℚ) Material.default
          ⟨0, 0, 0⟩ ⟨1, 0, 0⟩ ⟨0, 1, 0⟩ ⟨1, 0, 0⟩ ⟨0, 1, 0⟩ ⟨0, 0, -1⟩
          ⟨⟨1/4, 1/4, 1⟩, ⟨0, 0, -3/16777216⟩⟩ = []) := by
  refine ⟨⟨?_, ?_⟩, ?_, ?_⟩ <;>
    norm_num [LocalIntersect.triangle, V3.dot, V3.cross, P3.sub,
      absDiffEq, eps_rat, abs_lt, abs_le, lt_abs]

/-- C9: `precompute` returns `None` exactly when the hit shape's
`normal_at` fails, and `normal_at` fails exactly when the shape's
transform is not invertible; in either no-`Computation` branch (no hit,
or `precompute` none) `World::color_at` returns the background black
color with the recursion counter untouched rather than failing. -/
theorem C9_precompute_none_background :
    (∀ (i : Intersection ℚ) (ray : Ray ℚ) (xs : List (Intersection ℚ)),
      i.precompute ray xs = none ↔
        i.object.normalAt (ray.position i.t) i.uv = none) ∧
    (∀ (s : Shape ℚ) (p : P3 ℚ) (uv : Option (ℚ × ℚ)),
      s.normalAt p uv = none ↔ M4.invert s.transform = none) ∧
    (∀ (w : World ℚ) (rec : Nat) (ray : Ray ℚ) (fuel : Nat),
      (match hit (w.wIntersect ray) with
        | some i => i.precompute ray (w.wIntersect ray) = none
        | none => True) →
      World.colorAtF (fuel + 1) w rec ray = some (RGB.default, rec)) := by
  refine ⟨fun i ray xs => ?_, fun s p uv => ?_, fun w rec ray fuel h => ?_⟩
  · rw [Intersection.precompute]
    exact Option.map_eq_none'
  · rw [Shape.normalAt]
    exact Option.map_eq_none'
  · rw [World.colorAtF]
    rcases hh : hit (w.wIntersect ray) with _ | i
    · simp only
    · rw [hh] at h
      simp only [h]

/-- Witness for C9's background branch: the empty world has no hit for
any ray, and `color_at` returns black with the counter unchanged. -/
theorem C9_precompute_none_background_witness :
    World.colorAtF 1 (⟨⟨⟨0, 0, 0⟩, ⟨1, 1, 1⟩⟩, []⟩ : World ℚ) 5
      ⟨⟨0, 0, 0⟩, ⟨0, 0, 1⟩⟩ = some (RGB.default, 5) :=
  C9_precompute_none_background.2.2 _ 5 _ 0
    (by simp [World.wIntersect, sortByT, hit, rustMinBy])

/-- C3: in any world whose objects are all opaque planes — in
particular the two infinite mutually-reflective planes with
`reflective = 1` of the claim — `color_at` terminates for every ray:
the reflection recursion is bounded by the threaded recursion budget,
so the fuel-indexed evaluator already succeeds with any fuel exceeding
the budget (`rec < fuel`), never recursing without bound. -/
theorem C3_mutual_reflection_terminates (w : World ℚ)
    (hw : ∀ s ∈ w.objects,
      ∃ tf m, s = Shape.plane tf m ∧ m.transparency = 0) :
    ∀ (fuel rec : Nat) (ray : Ray ℚ), rec < fuel →
      (World.colorAtF fuel w rec ray).isSome := by
  intro fuel
  induction fuel with
  | zero => intro rec ray h; omega
  | succ fuel ih =>
    intro rec ray h
    rw [World.colorAtF]
    rcases hh : hit (w.wIntersect ray) with _ | i
    · simp
    · rcases hp : i.precompute ray (w.wIntersect ray) with _ | comps
      · simp [hp]
      · simp only [hp]
        obtain ⟨tf, m, hobj, htr⟩ :=
          wIntersect_opaque_plane w hw ray i
            (hit_some_spec _ _ hh).1
        have hcobj : comps.object = i.object := precompute_object _ _ _ _ hp
        have htrans :
            (Material.unwrapD comps.object.material).transparency = 0 := by
          rw [hcobj, hobj]
          simpa [Shape.material, Material.unwrapD] using htr
        have hrefr : ∀ rc,
            World.refractedColorF fuel w rc comps =
              some (RGB.default, recursionLimit) := fun rc => by
          rw [World.refractedColorF, if_pos (Or.inr htrans)]
        by_cases hrz :
            rec = 0 ∨ (Material.unwrapD comps.object.material).reflective = 0
        · have hrefl : World.reflectedColorF fuel w rec comps =
              some (RGB.default, recursionLimit) := by
            rw [World.reflectedColorF, if_pos hrz]
          simp only [World.shadeHitF, hrefl, hrefr]
          split <;> simp
        · have hrec1 : rec - 1 < fuel := by omega
          obtain ⟨⟨color, rec'⟩, hcr⟩ :=
            Option.isSome_iff_exists.mp
              (ih (rec - 1) ⟨comps.overPoint, comps.reflectv⟩ hrec1)
          have hrefl : World.reflectedColorF fuel w rec comps =
              some (RGB.smul color
                (Material.unwrapD comps.object.material).reflective, rec') := by
            rw [World.reflectedColorF, if_neg hrz, hcr]
          simp only [World.shadeHitF, hrefl, hrefr]
          split <;> simp

/-- Witness for C3: the `infinite_recursion` test world — planes at
`y = ∓1`, each `reflective = 1` (default material otherwise, hence
opaque), light at the origin — with the default budget 5 and fuel 6,
on the straight-up ray from the origin. -/
theorem C3_mutual_reflection_terminates_witness :
    (World.colorAtF 6
        (⟨⟨⟨0, 0, 0⟩, ⟨1, 1, 1⟩⟩,
          [Shape.plane (M4.fromTranslation ⟨0, -1, 0⟩)
              ⟨.solid ⟨1, 1, 1⟩, 1/10, 9/10, 9/10, 200, 1, 0, 1⟩,
            Shape.plane (M4.fromTranslation ⟨0, 1, 0⟩)
              ⟨.solid ⟨1, 1, 1⟩, 1/10, 9/10, 9/10, 200, 1, 0, 1⟩]⟩ :
          World ℚ) 5 ⟨⟨0, 0, 0⟩, ⟨0, 1, 0⟩⟩).isSome :=
  C3_mutual_reflection_terminates _
    (by
      intro s hs
      rcases List.mem_cons.mp hs with h | h
      · exact ⟨_, _, h, rfl⟩
      · rcases List.mem_cons.mp h with h' | h'
        · exact ⟨_, _, h', rfl⟩
        · exact absurd h' (by simp))
    6 5 _ (by omega)

/-- C7 counterexample: for a computation with `n1 = n2 = 1` at normal
incidence (`eyev = normalv`, so `cos_i = 1`), `schlick()` is exactly 0
— not approximately 0.04 (the spec's tolerance is about 1e-4): with
equal indices `r0 = 0` and the `(1 − cos)^5` term vanishes at normal
incidence. -/
theorem C7_schlick_counterexample :
    (⟨1, glassSphere, ⟨0, 1, 0⟩, ⟨0, 1, 0⟩, ⟨0, 1, 0⟩, false,
        ⟨0, 1, 0⟩, 1, 1⟩ : Computation ℚ).schlick = 0 ∧
    ¬(|(⟨1, glassSphere, ⟨0, 1, 0⟩, ⟨0, 1, 0⟩, ⟨0, 1, 0⟩, false,
          ⟨0, 1, 0⟩, 1, 1⟩ : Computation ℚ).schlick - 4/100| ≤ 1/10000) := by
  constructor <;>
    norm_num [Computation.schlick, Computation.sin2T, Computation.nRatio,
      Computation.cosI, Computation.cosT, V3.dot, abs_le, abs_lt, lt_abs]

/-- C7 amended: for the glass sphere (`transparency = 1`,
`refractive_index = 1.5`) and the ray with origin `(0, 0, √2/2)` and
direction `(0, 1, 0)`, `schlick()` of the computation precomputed at
the second (`t = √2/2`) intersection equals exactly 1 (total internal
reflection); and at the second (`t = 1`) intersection of the
perpendicular ray from the origin through the same glass sphere the
walk yields `n1 = 1.5`, `n2 = 1` (not `n1 = n2 = 1`) and
`schlick() = 0.04` exactly. -/
theorem C7_schlick_tir_and_perpendicular :
    ((((⟨Real.sqrt 2 / 2, glassSphere, none⟩ : Intersection ℝ).precompute
        ⟨⟨0, 0, Real.sqrt 2 / 2⟩, ⟨0, 1, 0⟩⟩
        [⟨-(Real.sqrt 2 / 2), glassSphere, none⟩,
         ⟨Real.sqrt 2 / 2, glassSphere, none⟩]).map
      Computation.schlick) = some 1) ∧
    ((((⟨1, glassSphere, none⟩ : Intersection ℚ).precompute
        ⟨⟨0, 0, 0⟩, ⟨0, 1, 0⟩⟩
        [⟨-1, glassSphere, none⟩, ⟨1, glassSphere, none⟩]).map
      (fun c => (c.n1, c.n2, c.schlick))) = some (3/2, 1, 1/25)) := by
  constructor
  · have hspos : (0 : ℝ) < Real.sqrt 2 := Real.sqrt_pos.mpr (by norm_num)
    have hs2 : Real.sqrt 2 ^ 2 = 2 := Real.sq_sqrt (by norm_num)
    have hne : (Real.sqrt 2 / 2 : ℝ) ≠ -(Real.sqrt 2 / 2) := by nlinarith
    have hmul : (Real.sqrt 2 / 2 : ℝ) * (Real.sqrt 2 / 2) = 1 / 2 := by
      nlinarith
    have hinner : Real.sqrt ((Real.sqrt 2 / 2) * (Real.sqrt 2 / 2) +
        (Real.sqrt 2 / 2) * (Real.sqrt 2 / 2)) = 1 := by
      rw [hmul]
      norm_num
    have hsq : (Real.sqrt 2 / 2 : ℝ) ^ 2 = 1 / 2 := by
      rw [pow_two]
      exact hmul
    rw [Intersection.precompute, glassSphere, Shape.normalAt]
    simp only [Shape.transform]
    rw [M4.invert_identity]
    norm_num [Shape.localNormalAt, M4.identity, M4.mulV, M4.transpose,
      P3.toHomogeneous, P3.fromHomogeneous, P3.toVec, Ray.position,
      P3.addV, V3.smul, V3.dot, V3.extend, V4.truncate, V3.normalize,
      V3.magnitude, sqrt_real, precomputeWalk, toggleContainers,
      lastRefractive, reflect, v3_neg_def, v3_sub_def,
      Intersection.mk.injEq, Shape.material, Material.unwrapD,
      Computation.schlick, Computation.sin2T, Computation.nRatio,
      Computation.cosI, Computation.cosT, hne, hs2, hspos, hmul, hinner,
      hsq]
  · rw [Intersection.precompute, glassSphere, Shape.normalAt]
    simp only [Shape.transform]
    rw [M4.invert_identity]
    norm_num [Shape.localNormalAt, M4.identity, M4.mulV, M4.transpose,
      P3.toHomogeneous, P3.fromHomogeneous, P3.toVec, Ray.position,
      P3.addV, V3.smul, V3.dot, V3.extend, V4.truncate, V3.normalize,
      V3.magnitude, sqrt_one_rat, precomputeWalk, toggleContainers,
      lastRefractive, reflect, v3_neg_def, v3_sub_def,
      Intersection.mk.injEq, Shape.material, Material.unwrapD,
      Computation.schlick, Computation.sin2T, Computation.nRatio,
      Computation.cosI, Computation.cosT]

end RayTracer
